import Mathlib

/-!
Verification of the hdulib booking orchestration engine.

Shallow embedding of the core logic of `src/utils/models.py`,
`src/utils/booking_service.py`, `src/utils/api_client.py` and the
time-correction step of `src/main.py`.

Time model: naive local time without DST, measured in whole seconds.
A timestamp `t : ℕ` denotes `t` seconds since the local epoch; a day is
86400 seconds, an hour 3600 seconds.  `datetime.replace(hour=h, minute=0,
second=0, microsecond=0)` becomes "floor to the day boundary, then add
`h` hours".
-/

namespace HduLib

/-- Seconds in one hour. -/
def secondsPerHour : ℕ := 3600

/-- Seconds in one day. -/
def secondsPerDay : ℕ := 86400

/-- The calendar day index of a timestamp (naive local time). -/
def dateOf (t : ℕ) : ℕ := t / secondsPerDay

/-- The hour-of-day of a timestamp (naive local time). -/
def hourOf (t : ℕ) : ℕ := t % secondsPerDay / secondsPerHour

/-- Models `datetime.replace(hour := h, minute := 0, second := 0, microsecond := 0)`:
keep the day of `t`, set the time of day to `h` o'clock sharp. -/
def replaceHour (t h : ℕ) : ℕ := (t / secondsPerDay) * secondsPerDay + h * secondsPerHour

/-- Python `str.isdigit` restricted to ASCII: non-empty and every character a digit
(`models.py`, `self.floor_id.isdigit()`). -/
def isDigitString (s : String) : Bool := s.length != 0 && s.data.all (fun c => c.isDigit)

/-- Decimal value of a digit string (`int(self.floor_id)`). -/
def parseDigits (s : String) : ℕ := s.data.foldl (fun acc c => acc * 10 + (c.toNat - 48)) 0

/-- From `models.py`: `int(self.floor_id) if self.floor_id.isdigit() else 0`. -/
def floorIdInt (s : String) : ℕ := if isDigitString s then parseDigits s else 0

/-- Structure `BookingTask` (`src/utils/models.py`): one unit of booking work.
`begin_time` is either an hour of day (0–23) or an absolute timestamp. -/
structure BookingTask where
  user_name : String
  password : String
  floor_id : String
  seat_number : String
  begin_time : ℕ
  duration : ℕ
  max_trials : ℕ
  interval : ℕ
  deriving Repr, DecidableEq

/-- The pydantic field/validator constraints of `BookingTask`
(`models.py`, `validate_begin_time`, `validate_duration`, `Field` bounds). -/
def ValidTask (t : BookingTask) : Prop :=
  (t.begin_time ≤ 23 ∨ t.begin_time > 1000000000) ∧
  1 ≤ t.duration ∧ t.duration ≤ 12 ∧
  1 ≤ t.max_trials ∧ t.max_trials ≤ 100 ∧
  1 ≤ t.interval ∧ t.interval ≤ 60

instance (t : BookingTask) : Decidable (ValidTask t) := by
  unfold ValidTask; infer_instance

namespace BookingTask

/-- The `models.py` property `days_ahead`: floors whose id parses to 1547 or 1548
open 1 day ahead; all others 2 days ahead. -/
def days_ahead (t : BookingTask) : ℕ :=
  if floorIdInt t.floor_id = 1547 ∨ floorIdInt t.floor_id = 1548 then 1 else 2

/-- The `models.py` property `max_duration_per_task`: floors 1547/1548 cap a
single task at `min 4 duration`; all others keep the full duration. -/
def max_duration_per_task (t : BookingTask) : ℕ :=
  if floorIdInt t.floor_id = 1547 ∨ floorIdInt t.floor_id = 1548 then
    min 4 t.duration
  else t.duration

end BookingTask

/-- The hour-format conversion at the top of
`BookingService._split_long_duration_task`: when `begin_time ≤ 23`, resolve
it to `(now + days_ahead days).replace(hour := begin_time, ...)`; otherwise
`begin_time` is already an absolute timestamp. -/
def convertBeginTime (now : ℕ) (t : BookingTask) : ℕ :=
  if t.begin_time ≤ 23 then
    replaceHour (now + t.days_ahead * secondsPerDay) t.begin_time
  else t.begin_time

/-- The splitting loop of `_split_long_duration_task`: while duration
remains, carve off `min remaining maxDur` hours (breaking if that is 0),
advancing the begin time by the carved duration in seconds. -/
def splitGo (t : BookingTask) (maxDur beginT remaining : ℕ) : List BookingTask :=
  if remaining = 0 then []
  else if min remaining maxDur = 0 then []
  else
    { t with begin_time := beginT, duration := min remaining maxDur } ::
      splitGo t maxDur (beginT + min remaining maxDur * secondsPerHour)
        (remaining - min remaining maxDur)
  termination_by remaining
  decreasing_by omega

/-- Function `BookingService._split_long_duration_task`: convert the begin time, then
either return the single corrected task (when no split is needed) or the list
of carved sub-tasks; the Python `tasks or [task]` fallback returns the
original task when the loop produced nothing. -/
def splitLongDurationTask (now : ℕ) (t : BookingTask) : List BookingTask :=
  if t.duration ≤ t.max_duration_per_task then
    [{ t with begin_time := convertBeginTime now t }]
  else if splitGo t t.max_duration_per_task (convertBeginTime now t) t.duration = [] then
    [t]
  else
    splitGo t t.max_duration_per_task (convertBeginTime now t) t.duration

/-- Contiguity of consecutive sub-tasks: the next sub-task begins where the
previous one ends (its duration counted in seconds). -/
def ContiguousStep (a b : BookingTask) : Prop :=
  b.begin_time = a.begin_time + a.duration * secondsPerHour

/-- All fields of a sub-task other than `begin_time` and `duration` agree
with the original task. -/
def SameStaticFields (s t : BookingTask) : Prop :=
  s.user_name = t.user_name ∧ s.password = t.password ∧
  s.floor_id = t.floor_id ∧ s.seat_number = t.seat_number ∧
  s.max_trials = t.max_trials ∧ s.interval = t.interval

instance (a b : BookingTask) : Decidable (ContiguousStep a b) := by
  unfold ContiguousStep; infer_instance

instance (s t : BookingTask) : Decidable (SameStaticFields s t) := by
  unfold SameStaticFields; infer_instance

/-- The in-place time correction of `src/main.py` (`run`, lines 75–77): a
begin time that is already in the past is shifted one day forward. -/
def correctPassedTime (now t : ℕ) : ℕ :=
  if t < now then t + secondsPerDay else t

/-- Structure `BookingResult` (`src/utils/models.py`).  The `booking_time` strftime
display string is pure formatting and is kept as an opaque optional string. -/
structure BookingResult where
  success : Bool
  user : String
  seat_info : String
  booking_time : Option String := none
  duration : Option String := none
  attempt : Option ℕ := none
  attempts : Option ℕ := none
  message : Option String := none
  error : Option String := none
  deriving Repr, DecidableEq

/-- The "Floor {floor_id}, Seat {seat_number}" descriptor built throughout
`booking_service.py` (braces shown as placeholders of the f-string). -/
def seatInfoString (t : BookingTask) : String :=
  "Floor " ++ t.floor_id ++ ", Seat " ++ t.seat_number

/-- Trace of one `_attempt_booking` run: the produced result, the number of
reserve calls made, and the sequence of inter-attempt sleep durations. -/
structure AttemptTrace where
  result : BookingResult
  calls : ℕ
  sleeps : List ℕ
  deriving Repr, DecidableEq

/-- The failure result built after the attempt loop exhausts all trials. -/
def mkAttemptFailure (t : BookingTask) (lastErr : String) : BookingResult :=
  { success := false, user := t.user_name, seat_info := seatInfoString t,
    error := some ("Failed after " ++ toString t.max_trials ++ " attempts: " ++ lastErr),
    attempts := some t.max_trials }

/-- The success result built when a reserve call returns "ok" on a 1-based
attempt index (`booking_time` formatting not modelled). -/
def mkAttemptSuccess (t : BookingTask) (attempt : ℕ) : BookingResult :=
  { success := true, user := t.user_name, seat_info := seatInfoString t,
    duration := some (toString t.duration ++ "h"),
    attempt := some attempt,
    message := some "Seat reservation successful" }

/-- The retry loop of `BookingService._attempt_booking`.  `responses i` is
the status string of the i-th (0-based) `confirm_seat` call ("ok" denotes
success; a transport exception is already folded into a "Request error: ..."
string by the except branch).  `remaining` counts loop iterations still
allowed, `lastErr` the last recorded failure reason; a sleep of
`t.interval` seconds happens after every failed attempt except the final
one. -/
def attemptGo (t : BookingTask) (responses : ℕ → String) :
    ℕ → ℕ → String → AttemptTrace
  | _attempt, 0, lastErr => ⟨mkAttemptFailure t lastErr, 0, []⟩
  | attempt, remaining + 1, _lastErr =>
    let r := responses attempt
    if r = "ok" then ⟨mkAttemptSuccess t (attempt + 1), 1, []⟩
    else if remaining = 0 then ⟨mkAttemptFailure t r, 1, []⟩
    else
      let rest := attemptGo t responses (attempt + 1) remaining r
      ⟨rest.result, rest.calls + 1, t.interval :: rest.sleeps⟩

/-- Function `_attempt_booking`: run the loop from attempt 0 with `max_trials`
iterations allowed and "Unknown error" as the initial failure reason. -/
def attemptBooking (t : BookingTask) (responses : ℕ → String) : AttemptTrace :=
  attemptGo t responses 0 t.max_trials "Unknown error"

/-- The per-position exception handling of `run_multiple_tasks`: an
exception (`Except.error e`) escaping a task's pipeline (collected by
`asyncio.gather(..., return_exceptions := True)`) becomes a failure
`BookingResult` built from that task; a normal result passes through. -/
def applyOutcome (task : BookingTask) (outcome : Except String BookingResult) :
    BookingResult :=
  match outcome with
  | Except.ok r => r
  | Except.error e =>
    { success := false, user := task.user_name, seat_info := seatInfoString task,
      error := some ("Task execution failed: " ++ e) }

/-- The result-processing pass of `run_multiple_tasks`: pipeline outcomes
arrive positionally, one per task. -/
def processGatherResults (tasks : List BookingTask)
    (outcomes : List (Except String BookingResult)) : List BookingResult :=
  (tasks.zip outcomes).map fun p => applyOutcome p.1 p.2

/-- Function `BookingService.run_multiple_tasks` (batch runner): empty input short-
circuits to an empty result list. -/
def runMultipleTasks (tasks : List BookingTask)
    (outcomes : List (Except String BookingResult)) : List BookingResult :=
  if tasks = [] then [] else processGatherResults tasks outcomes

/-- Per-floor topology data built by `query_seats`: the seat-name → seat-id
table and the floor's own internal id. -/
structure FloorData where
  seats : List (String × ℕ)
  seat_id : Option ℕ
  deriving Repr, DecidableEq

/-- Topology shape cached by `RoomsCacheManager`: room name → floor name →
floor data. -/
abbrev Rooms := List (String × List (String × FloorData))

/-- The nested dictionary lookup of `get_seat_id`:
`rooms.get(room, \x7b\x7d).get(floor, \x7b\x7d).get("seats", \x7b\x7d).get(seat, 0)`. -/
def seatLookup (rooms : Rooms) (roomName floorName seatNumber : String) : ℕ :=
  match rooms.lookup roomName with
  | none => 0
  | some floors =>
    match floors.lookup floorName with
    | none => 0
    | some fd => (fd.seats.lookup seatNumber).getD 0

/-- The static configuration tables `room_name_dict` / `floor_name_dict`
consumed by `get_seat_id` (injected from config). -/
structure SeatConfig where
  room_name_dict : List (String × String)
  floor_name_dict : List (String × String)
  deriving Repr, DecidableEq

/-- Function `LibraryAPIClient.get_seat_id`: resolve a floor id and seat number to a
seat id, or 0.  The Bool records whether the topology (`get_rooms_dict`)
was consulted.  Empty-string arguments and missing or empty mapping entries
fail fast with 0 and no topology access, exactly as the `if not ...` guards
do. -/
def getSeatId (cfg : SeatConfig) (rooms : Rooms) (floor_id seat_number : String) :
    ℕ × Bool :=
  if floor_id = "" ∨ seat_number = "" then (0, false)
  else
    match cfg.room_name_dict.lookup floor_id, cfg.floor_name_dict.lookup floor_id with
    | some rn, some fn =>
      if rn = "" ∨ fn = "" then (0, false)
      else (seatLookup rooms rn fn seat_number, true)
    | _, _ => (0, false)

/-- The `_wait_for_booking_window` arithmetic: the window opens at 20:00 local
on the day `daysAhead` days before the task's begin time
(`(begin_datetime - timedelta(days)).replace(hour := 20, ...)`).  Integer
timestamps; `%` on ℤ is the nonnegative remainder, matching Python. -/
def bookingOpensAt (begin_time : ℤ) (daysAhead : ℕ) : ℤ :=
  (begin_time - (daysAhead : ℤ) * 86400) -
    (begin_time - (daysAhead : ℤ) * 86400) % 86400 + 20 * 3600

/-- The sleep `_wait_for_booking_window` performs when the window
computation succeeds: exactly the positive difference, else zero. -/
def waitSleepSeconds (now begin_time : ℤ) (daysAhead : ℕ) : ℤ :=
  if now < bookingOpensAt begin_time daysAhead then
    bookingOpensAt begin_time daysAhead - now
  else 0

/-- The try/except wrapper of `_wait_for_booking_window`: a failing window
computation degrades to "proceed immediately" (sleep 0) rather than
raising. -/
def waitForBookingWindow (comp : Except String ℤ) : ℤ :=
  match comp with
  | Except.ok w => w
  | Except.error _ => 0

/-- Calendar day of an integer timestamp (floor division, as Python's
datetime day boundary). -/
def dateOfZ (t : ℤ) : ℤ := t / 86400

/-- Hour-of-day of an integer timestamp. -/
def hourOfZ (t : ℤ) : ℤ := t % 86400 / 3600

/-- The `RoomsCacheManager` mutable state: the cached topology and the time of
the last successful refresh. -/
structure CacheState where
  cache : Option Rooms
  timestamp : Option ℕ
  deriving Repr, DecidableEq

/-- Predicate `_is_cache_valid`: present and younger than the 1-hour TTL
(`now - ts < 3600`, written additively). -/
def isCacheValid (now : ℕ) (s : CacheState) : Bool :=
  match s.cache, s.timestamp with
  | some _, some ts => now < ts + 3600
  | _, _ => false

/-- Function `RoomsCacheManager.refresh_cache`: fetch under the exclusive lock; on
success replace cache and timestamp; on failure return the old cache if one
is stored (regardless of TTL), else re-raise the error. -/
def refreshCache (now : ℕ) (fetch : Except String Rooms) (s : CacheState) :
    Except String (Rooms × CacheState) :=
  match fetch with
  | Except.ok d => Except.ok (d, ⟨some d, some now⟩)
  | Except.error e =>
    match s.cache with
    | some old => Except.ok (old, s)
    | none => Except.error e

/-- Function `LibraryAPIClient.get_rooms_dict`: a non-forced call first consults the
cache and on miss fetches and stores; a failed non-forced fetch returns the
empty dict leaving the cache untouched.  A forced call goes through
`refresh_cache`. -/
def getRoomsDict (force : Bool) (now : ℕ) (fetch : Except String Rooms)
    (s : CacheState) : Except String (Rooms × CacheState) :=
  if force = false ∧ isCacheValid now s then
    Except.ok (s.cache.getD [], s)
  else if force then refreshCache now fetch s
  else
    match fetch with
    | Except.ok d => Except.ok (d, ⟨some d, some now⟩)
    | Except.error _ => Except.ok ([], s)

/-- Program counter of one `get_rooms_dict(force_refresh := False)` caller
in the two-caller interleaving model of the cache.  The lock-protected
`get_cache` check and `set_cache` store are single atomic steps; the
external fetch runs outside the lock, exactly as in the code. -/
inductive CallerPC
  | check
  | fetch
  | store
  | done
  deriving Repr, DecidableEq

/-- Which of the two concurrent callers moves next. -/
inductive CallerId
  | A
  | B
  deriving Repr, DecidableEq

/-- Shared state of two concurrent `get_rooms_dict` callers: the shared
cache slot, each caller's program counter and returned value, and the
number of external fetches performed.  Both callers run within one TTL
window, so cache validity is presence of an entry. -/
structure TwoCallerState where
  cache : Option Rooms
  pcA : CallerPC
  pcB : CallerPC
  fetchCount : ℕ
  resultA : Option Rooms
  resultB : Option Rooms
  deriving Repr, DecidableEq

/-- One atomic step of the named caller: check the cache under the lock
(hit → done with the cached value, miss → proceed to fetch), perform the
external fetch (succeeding with payload `d`), or store the fetched data
under the lock and return it. -/
def stepOne (d : Rooms) (st : TwoCallerState) (who : CallerId) : TwoCallerState :=
  match who with
  | CallerId.A =>
    match st.pcA with
    | CallerPC.check =>
      match st.cache with
      | some c => { st with pcA := CallerPC.done, resultA := some c }
      | none => { st with pcA := CallerPC.fetch }
    | CallerPC.fetch =>
      { st with pcA := CallerPC.store, fetchCount := st.fetchCount + 1 }
    | CallerPC.store =>
      { st with pcA := CallerPC.done, cache := some d, resultA := some d }
    | CallerPC.done => st
  | CallerId.B =>
    match st.pcB with
    | CallerPC.check =>
      match st.cache with
      | some c => { st with pcB := CallerPC.done, resultB := some c }
      | none => { st with pcB := CallerPC.fetch }
    | CallerPC.fetch =>
      { st with pcB := CallerPC.store, fetchCount := st.fetchCount + 1 }
    | CallerPC.store =>
      { st with pcB := CallerPC.done, cache := some d, resultB := some d }
    | CallerPC.done => st

/-- Run a schedule (an interleaving of the two callers) from a state. -/
def execSchedule (d : Rooms) (sched : List CallerId) (st : TwoCallerState) :
    TwoCallerState :=
  sched.foldl (stepOne d) st

/-- Initial state: empty cache, both callers about to check. -/
def initTwoCallers : TwoCallerState :=
  ⟨none, CallerPC.check, CallerPC.check, 0, none, none⟩

/-- A concrete 6-hour task on floor 1547, used to instantiate theorems. -/
def sampleTask : BookingTask := ⟨"u", "p", "1547", "42", 10, 6, 3, 2⟩

/-- A reserve endpoint that always reports the seat as taken. -/
def alwaysBusy : ℕ → String := fun _ => "seat taken"

/-- A reserve endpoint that succeeds on the third call (0-based index 2). -/
def okOnThird : ℕ → String := fun i => if i = 2 then "ok" else "seat taken"

/-- A concrete successful pipeline result, used to instantiate theorems. -/
def okResult : BookingResult :=
  { success := true, user := "v", seat_info := "Floor 1547, Seat 7" }

/-- A concrete static mapping table: floor id "1547" → room "RoomA",
floor name "F4". -/
def sampleConfig : SeatConfig := ⟨[("1547", "RoomA")], [("1547", "F4")]⟩

/-- A concrete topology: room "RoomA", floor "F4", seat "42" with id 1001. -/
def sampleRooms : Rooms := [("RoomA", [("F4", ⟨[("42", 1001)], some 9⟩)])]

/-- First sub-task of splitting `sampleTask` at local time 0. -/
def sampleSub1 : BookingTask := ⟨"u", "p", "1547", "42", 122400, 4, 3, 2⟩

/-- Second sub-task of splitting `sampleTask` at local time 0. -/
def sampleSub2 : BookingTask := ⟨"u", "p", "1547", "42", 136800, 2, 3, 2⟩

/-! ## Lemmas about the splitting loop -/

theorem splitGo_nil (t : BookingTask) (maxDur beginT remaining : ℕ)
    (h : remaining = 0 ∨ maxDur = 0) :
    splitGo t maxDur beginT remaining = [] := by
  rcases h with h | h
  · rw [splitGo, if_pos h]
  · rw [splitGo]
    rcases Nat.eq_zero_or_pos remaining with h0 | h0
    · rw [if_pos h0]
    · rw [if_neg (by omega), if_pos (by omega)]

theorem splitGo_cons (t : BookingTask) (maxDur beginT remaining : ℕ)
    (hr : remaining ≠ 0) (hm : maxDur ≠ 0) :
    splitGo t maxDur beginT remaining =
      { t with begin_time := beginT, duration := min remaining maxDur } ::
        splitGo t maxDur (beginT + min remaining maxDur * secondsPerHour)
          (remaining - min remaining maxDur) := by
  rw [splitGo, if_neg hr, if_neg (by omega)]

theorem splitGo_ne_nil (t : BookingTask) (maxDur beginT remaining : ℕ)
    (hr : remaining ≠ 0) (hm : maxDur ≠ 0) :
    splitGo t maxDur beginT remaining ≠ [] := by
  rw [splitGo_cons t maxDur beginT remaining hr hm]
  exact List.cons_ne_nil _ _

theorem splitGo_sum (t : BookingTask) (maxDur : ℕ) (hm : maxDur ≠ 0) :
    ∀ remaining beginT,
      ((splitGo t maxDur beginT remaining).map (fun s => s.duration)).sum
        = remaining := by
  intro remaining
  induction remaining using Nat.strong_induction_on with
  | _ r ih =>
    intro beginT
    rcases Nat.eq_zero_or_pos r with h0 | h0
    · rw [splitGo_nil t maxDur beginT r (Or.inl h0), h0]; rfl
    · rw [splitGo_cons t maxDur beginT r (by omega) hm]
      simp only [List.map_cons, List.sum_cons]
      rw [ih (r - min r maxDur) (by omega)]
      omega

theorem splitGo_duration_le (t : BookingTask) (maxDur : ℕ) :
    ∀ remaining beginT, ∀ s ∈ splitGo t maxDur beginT remaining,
      s.duration ≤ maxDur := by
  intro remaining
  induction remaining using Nat.strong_induction_on with
  | _ r ih =>
    intro beginT s hs
    rcases Nat.eq_zero_or_pos r with h0 | h0
    · rw [splitGo_nil t maxDur beginT r (Or.inl h0)] at hs
      exact absurd hs (List.not_mem_nil s)
    · rcases Nat.eq_zero_or_pos maxDur with hm0 | hm0
      · rw [splitGo_nil t maxDur beginT r (Or.inr hm0)] at hs
        exact absurd hs (List.not_mem_nil s)
      · rw [splitGo_cons t maxDur beginT r (by omega) (by omega)] at hs
        rcases List.mem_cons.mp hs with h | h
        · subst h; simp only []; omega
        · exact ih (r - min r maxDur) (by omega) _ s h

theorem splitGo_fields (t : BookingTask) (maxDur : ℕ) :
    ∀ remaining beginT, ∀ s ∈ splitGo t maxDur beginT remaining,
      SameStaticFields s t := by
  intro remaining
  induction remaining using Nat.strong_induction_on with
  | _ r ih =>
    intro beginT s hs
    rcases Nat.eq_zero_or_pos r with h0 | h0
    · rw [splitGo_nil t maxDur beginT r (Or.inl h0)] at hs
      exact absurd hs (List.not_mem_nil s)
    · rcases Nat.eq_zero_or_pos maxDur with hm0 | hm0
      · rw [splitGo_nil t maxDur beginT r (Or.inr hm0)] at hs
        exact absurd hs (List.not_mem_nil s)
      · rw [splitGo_cons t maxDur beginT r (by omega) (by omega)] at hs
        rcases List.mem_cons.mp hs with h | h
        · subst h
          exact ⟨rfl, rfl, rfl, rfl, rfl, rfl⟩
        · exact ih (r - min r maxDur) (by omega) _ s h

theorem splitGo_head_begin (t : BookingTask) (maxDur remaining beginT : ℕ)
    (s : BookingTask) (hs : (splitGo t maxDur beginT remaining).head? = some s) :
    s.begin_time = beginT := by
  rcases Nat.eq_zero_or_pos remaining with h0 | h0
  · rw [splitGo_nil t maxDur beginT remaining (Or.inl h0)] at hs
    exact absurd hs (by simp)
  rcases Nat.eq_zero_or_pos maxDur with hm0 | hm0
  · rw [splitGo_nil t maxDur beginT remaining (Or.inr hm0)] at hs
    exact absurd hs (by simp)
  rw [splitGo_cons t maxDur beginT remaining (by omega) (by omega)] at hs
  simp only [List.head?_cons, Option.some.injEq] at hs
  rw [← hs]

theorem splitGo_chain (t : BookingTask) (maxDur : ℕ) :
    ∀ remaining beginT,
      List.Chain' ContiguousStep (splitGo t maxDur beginT remaining) := by
  intro remaining
  induction remaining using Nat.strong_induction_on with
  | _ r ih =>
    intro beginT
    rcases Nat.eq_zero_or_pos r with h0 | h0
    · rw [splitGo_nil t maxDur beginT r (Or.inl h0)]; exact List.chain'_nil
    rcases Nat.eq_zero_or_pos maxDur with hm0 | hm0
    · rw [splitGo_nil t maxDur beginT r (Or.inr hm0)]; exact List.chain'_nil
    rw [splitGo_cons t maxDur beginT r (by omega) (by omega)]
    refine List.chain'_cons'.mpr ⟨?_, ih (r - min r maxDur) (by omega) _⟩
    intro y hy
    have hb := splitGo_head_begin t maxDur (r - min r maxDur)
      (beginT + min r maxDur * secondsPerHour) y hy
    unfold ContiguousStep
    rw [hb]

theorem splitGo_six_four (t : BookingTask) (b : ℕ) :
    splitGo t 4 b 6 =
      [{ t with begin_time := b, duration := 4 },
       { t with begin_time := b + 4 * secondsPerHour, duration := 2 }] := by
  rw [splitGo_cons t 4 b 6 (by norm_num) (by norm_num)]
  norm_num [min_def]
  rw [splitGo_cons t 4 (b + 4 * secondsPerHour) 2 (by norm_num) (by norm_num)]
  norm_num [min_def]
  rw [splitGo_nil t 4 (b + 4 * secondsPerHour + 2 * secondsPerHour) 0 (Or.inl rfl)]

theorem splitLong_sample :
    splitLongDurationTask 0 sampleTask = [sampleSub1, sampleSub2] := by
  have hmd : sampleTask.max_duration_per_task = 4 := by decide
  have hconv : convertBeginTime 0 sampleTask = 122400 := by decide
  have hdur : sampleTask.duration = 6 := rfl
  unfold splitLongDurationTask
  rw [hmd, hconv, hdur, if_neg (by decide), splitGo_six_four sampleTask 122400]
  rw [if_neg (by decide)]
  decide

theorem max_duration_per_task_pos (t : BookingTask) (h : 1 ≤ t.duration) :
    1 ≤ t.max_duration_per_task := by
  unfold BookingTask.max_duration_per_task
  split <;> omega

theorem days_ahead_pos (t : BookingTask) : 1 ≤ t.days_ahead := by
  unfold BookingTask.days_ahead
  split <;> omega

/-! ## Claims about task splitting and time conversion -/

/-- C1: for every valid `BookingTask` whose duration exceeds
`max_duration_per_task`, the split sub-tasks' durations sum exactly to the
requested duration, each sub-task's duration is at most
`max_duration_per_task`, and the sub-tasks are contiguous: each subsequent
`begin_time` is the previous `begin_time` plus the previous duration in
seconds. -/
theorem split_subtasks_sum_cap_contiguous (now : ℕ) (t : BookingTask)
    (hv : ValidTask t) (hgt : t.max_duration_per_task < t.duration) :
    (((splitLongDurationTask now t).map (fun s => s.duration)).sum = t.duration) ∧
    (∀ s ∈ splitLongDurationTask now t, s.duration ≤ t.max_duration_per_task) ∧
    List.Chain' ContiguousStep (splitLongDurationTask now t) := by
  have hd1 : 1 ≤ t.duration := hv.2.1
  have hm1 : 1 ≤ t.max_duration_per_task := max_duration_per_task_pos t hd1
  unfold splitLongDurationTask
  rw [if_neg (by omega),
    if_neg (splitGo_ne_nil t t.max_duration_per_task (convertBeginTime now t)
      t.duration (by omega) (by omega))]
  exact ⟨splitGo_sum t t.max_duration_per_task (by omega) t.duration _,
    fun s hs => splitGo_duration_le t t.max_duration_per_task t.duration _ s hs,
    splitGo_chain t t.max_duration_per_task t.duration _⟩

/-- Witness for C1 at a concrete 6-hour task on floor 1547. -/
theorem split_subtasks_sum_cap_contiguous_witness :
    ValidTask sampleTask ∧
    sampleTask.max_duration_per_task < sampleTask.duration ∧
    ((((splitLongDurationTask 0 sampleTask).map (fun s => s.duration)).sum
        = sampleTask.duration) ∧
      (∀ s ∈ splitLongDurationTask 0 sampleTask,
        s.duration ≤ sampleTask.max_duration_per_task) ∧
      List.Chain' ContiguousStep (splitLongDurationTask 0 sampleTask)) :=
  ⟨by decide, by decide,
    split_subtasks_sum_cap_contiguous 0 sampleTask (by decide) (by decide)⟩

/-- C10: splitting modifies only `begin_time` and `duration`; every
sub-task keeps the original `user_name`, `password`, `floor_id`,
`seat_number`, `max_trials` and `interval`. -/
theorem split_preserves_static_fields (now : ℕ) (t : BookingTask) :
    ∀ s ∈ splitLongDurationTask now t, SameStaticFields s t := by
  intro s hs
  unfold splitLongDurationTask at hs
  split at hs
  · rcases List.mem_singleton.mp hs with h
    subst h
    exact ⟨rfl, rfl, rfl, rfl, rfl, rfl⟩
  · split at hs
    · rcases List.mem_singleton.mp hs with h
      subst h
      exact ⟨rfl, rfl, rfl, rfl, rfl, rfl⟩
    · exact splitGo_fields t t.max_duration_per_task t.duration _ s hs

/-- Witness for C10 at the first sub-task of the concrete split. -/
theorem split_preserves_static_fields_witness :
    sampleSub1 ∈ splitLongDurationTask 0 sampleTask ∧
    SameStaticFields sampleSub1 sampleTask :=
  ⟨by rw [splitLong_sample]; exact List.mem_cons_self _ _,
    split_preserves_static_fields 0 sampleTask sampleSub1
      (by rw [splitLong_sample]; exact List.mem_cons_self _ _)⟩

/-- Property `days_ahead` only reads `floor_id`, which the split loop never touches. -/
theorem days_ahead_update (t : BookingTask) (b d : ℕ) :
    BookingTask.days_ahead { t with begin_time := b, duration := d }
      = t.days_ahead := rfl

/-- C2: for a task whose `begin_time` is an hour of day (0–23), the resolved
absolute timestamp has that hour-of-day and falls on the current date plus
`days_ahead`; it is always in the future, so the in-place +1-day correction
(`src/main.py`) leaves it unchanged, while any begin time already in the past
is shifted one day forward by that correction. -/
theorem hour_conversion_resolves_correctly (now : ℕ) (t : BookingTask)
    (hh : t.begin_time ≤ 23) :
    hourOf (convertBeginTime now t) = t.begin_time ∧
    dateOf (convertBeginTime now t) = dateOf now + t.days_ahead ∧
    now < convertBeginTime now t ∧
    correctPassedTime now (convertBeginTime now t) = convertBeginTime now t ∧
    (∀ x, x < now → correctPassedTime now x = x + secondsPerDay) := by
  have hda := days_ahead_pos t
  unfold convertBeginTime
  rw [if_pos hh]
  unfold correctPassedTime replaceHour hourOf dateOf secondsPerDay secondsPerHour
  refine ⟨by omega, by omega, by omega, ?_, ?_⟩
  · rw [if_neg (by omega)]
  · intro x hx
    rw [if_pos hx]

/-- Witness for C2 at `sampleTask` and local time 50000. -/
theorem hour_conversion_resolves_correctly_witness :
    sampleTask.begin_time ≤ 23 ∧
    hourOf (convertBeginTime 50000 sampleTask) = sampleTask.begin_time ∧
    dateOf (convertBeginTime 50000 sampleTask)
      = dateOf 50000 + sampleTask.days_ahead ∧
    50000 < convertBeginTime 50000 sampleTask ∧
    correctPassedTime 50000 (convertBeginTime 50000 sampleTask)
      = convertBeginTime 50000 sampleTask ∧
    correctPassedTime 50000 100 = 100 + secondsPerDay := by
  have h := hour_conversion_resolves_correctly 50000 sampleTask (by decide)
  exact ⟨by decide, h.1, h.2.1, h.2.2.1, h.2.2.2.1, h.2.2.2.2 100 (by decide)⟩

/-- C7 as stated fails on the code: floor id "01547" is a different
identifier than "1547" and "1548" yet receives `days_ahead = 1`, because
the code compares `int(floor_id)`; and on floor "1547" a 2-hour task has
`max_duration_per_task = 2`, not 4, because the code caps at
`min 4 duration`. -/
theorem floor_policy_counterexample :
    BookingTask.days_ahead ⟨"u", "p", "01547", "1", 10, 6, 3, 2⟩ = 1 ∧
    ("01547" ≠ "1547" ∧ "01547" ≠ "1548") ∧
    BookingTask.max_duration_per_task ⟨"u", "p", "1547", "1", 10, 2, 3, 2⟩ = 2 := by
  decide

/-- C7 amended: a floor id whose digits parse to 1547 or 1548 gives
`days_ahead = 1` and cap `min 4 duration`; any other floor id gives
`days_ahead = 2` and no cap below the requested duration; a 6-hour task on
floor "1547" splits into sub-tasks of 4h and 2h, each with
`days_ahead = 1`. -/
theorem floor_policy_amended (now : ℕ) (t : BookingTask) :
    ((floorIdInt t.floor_id = 1547 ∨ floorIdInt t.floor_id = 1548) →
      t.days_ahead = 1 ∧ t.max_duration_per_task = min 4 t.duration) ∧
    (¬(floorIdInt t.floor_id = 1547 ∨ floorIdInt t.floor_id = 1548) →
      t.days_ahead = 2 ∧ t.max_duration_per_task = t.duration) ∧
    (t.floor_id = "1547" → t.duration = 6 →
      (splitLongDurationTask now t).map (fun s => s.duration) = [4, 2] ∧
      ∀ s ∈ splitLongDurationTask now t, s.days_ahead = 1) := by
  refine ⟨?_, ?_, ?_⟩
  · intro h
    unfold BookingTask.days_ahead BookingTask.max_duration_per_task
    rw [if_pos h, if_pos h]
    exact ⟨rfl, rfl⟩
  · intro h
    unfold BookingTask.days_ahead BookingTask.max_duration_per_task
    rw [if_neg h, if_neg h]
    exact ⟨rfl, rfl⟩
  · intro hf hd
    have hint : floorIdInt t.floor_id = 1547 := by rw [hf]; decide
    have hmd : t.max_duration_per_task = 4 := by
      unfold BookingTask.max_duration_per_task
      rw [if_pos (Or.inl hint)]
      omega
    have key : splitLongDurationTask now t
        = splitGo t 4 (convertBeginTime now t) 6 := by
      unfold splitLongDurationTask
      rw [hmd, hd,
        if_neg (by omega),
        if_neg (splitGo_ne_nil t 4 (convertBeginTime now t) 6 (by omega) (by omega))]
    rw [key, splitGo_six_four]
    refine ⟨rfl, ?_⟩
    intro s hs
    have hda1 : t.days_ahead = 1 := by
      unfold BookingTask.days_ahead
      rw [if_pos (Or.inl hint)]
    rcases List.mem_cons.mp hs with h | h
    · subst h
      rw [days_ahead_update, hda1]
    · rcases List.mem_singleton.mp h with h
      subst h
      rw [days_ahead_update, hda1]

/-- Witness for the C7 amendment at `sampleTask`. -/
theorem floor_policy_amended_witness :
    BookingTask.days_ahead sampleTask = 1 ∧
    (splitLongDurationTask 0 sampleTask).map (fun s => s.duration) = [4, 2] := by
  have h := floor_policy_amended 0 sampleTask
  exact ⟨(h.1 (Or.inl (by decide))).1, (h.2.2 rfl rfl).1⟩

/-! ## Lemmas about the attempt loop -/

theorem attemptGo_all_fail (t : BookingTask) (responses : ℕ → String) :
    ∀ remaining attempt lastErr,
      remaining ≠ 0 →
      (∀ j, j < remaining → responses (attempt + j) ≠ "ok") →
      attemptGo t responses attempt remaining lastErr =
        ⟨mkAttemptFailure t (responses (attempt + remaining - 1)), remaining,
          List.replicate (remaining - 1) t.interval⟩ := by
  intro remaining
  induction remaining with
  | zero => intro _ _ h; exact absurd rfl h
  | succ r ih =>
    intro attempt lastErr _ hfail
    have h0 : responses attempt ≠ "ok" := by
      have := hfail 0 (by omega)
      simpa using this
    simp only [attemptGo]
    rw [if_neg h0]
    by_cases hr : r = 0
    · subst hr
      rw [if_pos rfl]
      simp
    · rw [if_neg hr]
      rw [ih (attempt + 1) (responses attempt) hr
        (fun j hj => by
          have := hfail (j + 1) (by omega)
          rwa [show attempt + (j + 1) = attempt + 1 + j by omega] at this)]
      simp only []
      rw [show attempt + 1 + r - 1 = attempt + (r + 1) - 1 by omega,
        show r + 1 - 1 = (r - 1) + 1 by omega, List.replicate_succ]

theorem attemptGo_first_ok (t : BookingTask) (responses : ℕ → String) :
    ∀ remaining attempt lastErr k,
      k < remaining →
      responses (attempt + k) = "ok" →
      (∀ j, j < k → responses (attempt + j) ≠ "ok") →
      attemptGo t responses attempt remaining lastErr =
        ⟨mkAttemptSuccess t (attempt + k + 1), k + 1,
          List.replicate k t.interval⟩ := by
  intro remaining
  induction remaining with
  | zero => intro _ _ k hk; omega
  | succ r ih =>
    intro attempt lastErr k hk hok hbefore
    simp only [attemptGo]
    cases k with
    | zero =>
      rw [if_pos (by simpa using hok)]
      simp
    | succ k =>
      have h0 : responses attempt ≠ "ok" := by
        have := hbefore 0 (by omega)
        simpa using this
      rw [if_neg h0]
      have hr : r ≠ 0 := by omega
      rw [if_neg hr]
      rw [ih (attempt + 1) (responses attempt) k (by omega)
        (by rwa [show attempt + 1 + k = attempt + (k + 1) by omega])
        (fun j hj => by
          have := hbefore (j + 1) (by omega)
          rwa [show attempt + (j + 1) = attempt + 1 + j by omega] at this)]
      simp only []
      rw [show attempt + 1 + k + 1 = attempt + (k + 1) + 1 by omega,
        List.replicate_succ]

/-- C5: in the booking attempt loop, a reserve call returning "ok" at the
(1-based) attempt k — the first success — stops the loop with a success
result carrying `attempt = k`; when every call fails, the loop performs
exactly `max_trials` calls, sleeps `interval` seconds after each of the
first `max_trials - 1` attempts and not after the final one, and returns a
failure whose error embeds the attempt count and the last failure
reason. -/
theorem attempt_loop_spec (t : BookingTask) (responses : ℕ → String)
    (hmt : 1 ≤ t.max_trials) :
    (∀ k, 1 ≤ k → k ≤ t.max_trials → responses (k - 1) = "ok" →
      (∀ j, j < k - 1 → responses j ≠ "ok") →
      (attemptBooking t responses).result = mkAttemptSuccess t k ∧
      (attemptBooking t responses).result.success = true ∧
      (attemptBooking t responses).result.attempt = some k ∧
      (attemptBooking t responses).calls = k ∧
      (attemptBooking t responses).sleeps
        = List.replicate (k - 1) t.interval) ∧
    ((∀ j, j < t.max_trials → responses j ≠ "ok") →
      (attemptBooking t responses).calls = t.max_trials ∧
      (attemptBooking t responses).sleeps
        = List.replicate (t.max_trials - 1) t.interval ∧
      (attemptBooking t responses).result.success = false ∧
      (attemptBooking t responses).result.attempts = some t.max_trials ∧
      (attemptBooking t responses).result.error
        = some ("Failed after " ++ toString t.max_trials ++ " attempts: "
            ++ responses (t.max_trials - 1))) := by
  constructor
  · intro k hk1 hk2 hok hbefore
    unfold attemptBooking
    rw [attemptGo_first_ok t responses t.max_trials 0 "Unknown error" (k - 1)
      (by omega) (by simpa using hok) (fun j hj => by simpa using hbefore j hj)]
    rw [show 0 + (k - 1) + 1 = k by omega, show k - 1 + 1 = k by omega]
    exact ⟨rfl, rfl, rfl, rfl, rfl⟩
  · intro hfail
    unfold attemptBooking
    rw [attemptGo_all_fail t responses t.max_trials 0 "Unknown error"
      (by omega) (fun j hj => by simpa using hfail j hj)]
    rw [show 0 + t.max_trials - 1 = t.max_trials - 1 by omega]
    exact ⟨rfl, rfl, rfl, rfl, rfl⟩

/-- Witness for C5: with `sampleTask` (3 trials, 2-second interval), success
on the third call carries attempt 3; all-failing calls give 3 calls and two
2-second sleeps. -/
theorem attempt_loop_spec_witness :
    1 ≤ sampleTask.max_trials ∧
    (attemptBooking sampleTask okOnThird).result.success = true ∧
    (attemptBooking sampleTask okOnThird).result.attempt = some 3 ∧
    (attemptBooking sampleTask alwaysBusy).calls = 3 ∧
    (attemptBooking sampleTask alwaysBusy).sleeps = List.replicate 2 2 ∧
    (attemptBooking sampleTask alwaysBusy).result.error
      = some ("Failed after " ++ toString 3 ++ " attempts: " ++ "seat taken") := by
  have h1 := (attempt_loop_spec sampleTask okOnThird (by decide)).1 3
    (by decide) (by decide) (by decide) (by decide)
  have h2 := (attempt_loop_spec sampleTask alwaysBusy (by decide)).2 (by decide)
  exact ⟨by decide, h1.2.1, h1.2.2.1, h2.1, h2.2.1, h2.2.2.2.2⟩

/-! ## Lemmas about the batch runner -/

theorem processGather_getElem? :
    ∀ (tasks : List BookingTask) (outcomes : List (Except String BookingResult))
      (i : ℕ) (ti : BookingTask) (oi : Except String BookingResult),
      tasks[i]? = some ti → outcomes[i]? = some oi →
      (processGatherResults tasks outcomes)[i]? = some (applyOutcome ti oi) := by
  intro tasks
  induction tasks with
  | nil => intro outcomes i ti oi ht; simp at ht
  | cons a ts ih =>
    intro outcomes i ti oi ht ho
    cases outcomes with
    | nil => simp at ho
    | cons b os =>
      have hstep : processGatherResults (a :: ts) (b :: os)
          = applyOutcome a b :: processGatherResults ts os := by
        unfold processGatherResults
        rw [List.zip_cons_cons, List.map_cons]
      cases i with
      | zero =>
        simp only [List.getElem?_cons_zero, Option.some.injEq] at ht ho
        subst ht; subst ho
        rw [hstep, List.getElem?_cons_zero]
      | succ n =>
        simp only [List.getElem?_cons_succ] at ht ho
        rw [hstep, List.getElem?_cons_succ]
        exact ih os n ti oi ht ho

/-- C6: the batch runner yields exactly one `BookingResult` per task, in
input order; at every position an exception outcome is converted into a
failure result built from that position's task, and a normal outcome passes
through unchanged — independently of every other position. -/
theorem batch_runner_positional (tasks : List BookingTask)
    (outcomes : List (Except String BookingResult))
    (hlen : outcomes.length = tasks.length) :
    (runMultipleTasks tasks outcomes).length = tasks.length ∧
    ∀ (i : ℕ) (ti : BookingTask) (oi : Except String BookingResult),
      tasks[i]? = some ti → outcomes[i]? = some oi →
      (∀ e, oi = Except.error e →
        (runMultipleTasks tasks outcomes)[i]?
          = some { success := false, user := ti.user_name,
                   seat_info := seatInfoString ti,
                   error := some ("Task execution failed: " ++ e) }) ∧
      (∀ r, oi = Except.ok r →
        (runMultipleTasks tasks outcomes)[i]? = some r) := by
  by_cases hts : tasks = []
  · subst hts
    constructor
    · rw [runMultipleTasks, if_pos rfl]
      rfl
    · intro i ti oi ht; simp at ht
  · have hrun : runMultipleTasks tasks outcomes = processGatherResults tasks outcomes := by
      rw [runMultipleTasks, if_neg hts]
    constructor
    · rw [hrun]
      unfold processGatherResults
      rw [List.length_map, List.length_zip]
      omega
    · intro i ti oi ht ho
      have key := processGather_getElem? tasks outcomes i ti oi ht ho
      rw [hrun]
      constructor
      · intro e he
        rw [key, he]
        rfl
      · intro r hr
        rw [key, hr]
        rfl

/-- Witness for C6: a two-task batch where the first pipeline raises and
the second returns normally. -/
theorem batch_runner_positional_witness :
    ([Except.error "boom", Except.ok okResult]
        : List (Except String BookingResult)).length
      = [sampleTask, sampleSub1].length ∧
    (runMultipleTasks [sampleTask, sampleSub1]
        [Except.error "boom", Except.ok okResult]).length = 2 ∧
    (runMultipleTasks [sampleTask, sampleSub1]
        [Except.error "boom", Except.ok okResult])[0]?
      = some { success := false, user := sampleTask.user_name,
               seat_info := seatInfoString sampleTask,
               error := some ("Task execution failed: " ++ "boom") } ∧
    (runMultipleTasks [sampleTask, sampleSub1]
        [Except.error "boom", Except.ok okResult])[1]?
      = some okResult := by
  have h := batch_runner_positional [sampleTask, sampleSub1]
    [Except.error "boom", Except.ok okResult] rfl
  refine ⟨rfl, h.1, ?_, ?_⟩
  · exact (h.2 0 sampleTask (Except.error "boom") rfl rfl).1 "boom" rfl
  · exact (h.2 1 sampleSub1 (Except.ok okResult) rfl rfl).2 okResult rfl

/-! ## Seat resolver -/

theorem seatLookup_room_none (rooms : Rooms) (rn fn sn : String)
    (h : rooms.lookup rn = none) : seatLookup rooms rn fn sn = 0 := by
  rw [seatLookup, h]

theorem seatLookup_floor_none (rooms : Rooms) (rn fn sn : String)
    (floors : List (String × FloorData)) (hr : rooms.lookup rn = some floors)
    (hf : floors.lookup fn = none) : seatLookup rooms rn fn sn = 0 := by
  rw [seatLookup, hr]
  simp only [hf]

theorem seatLookup_seat (rooms : Rooms) (rn fn sn : String)
    (floors : List (String × FloorData)) (fd : FloorData)
    (hr : rooms.lookup rn = some floors) (hf : floors.lookup fn = some fd) :
    seatLookup rooms rn fn sn = (fd.seats.lookup sn).getD 0 := by
  rw [seatLookup, hr]
  simp only [hf]

/-- C8: a floor id absent from the static mapping tables resolves to 0
without consulting the topology; a mapped floor id resolves through the
topology: 0 when the room, floor, or seat key is absent, otherwise the
stored seat id. -/
theorem seat_resolver_spec (cfg : SeatConfig) (rooms : Rooms)
    (floor_id seat_number : String)
    (hfid : floor_id ≠ "") (hseat : seat_number ≠ "") :
    ((cfg.room_name_dict.lookup floor_id = none ∨
        cfg.floor_name_dict.lookup floor_id = none) →
      getSeatId cfg rooms floor_id seat_number = (0, false)) ∧
    (∀ rn fn, cfg.room_name_dict.lookup floor_id = some rn →
      cfg.floor_name_dict.lookup floor_id = some fn → rn ≠ "" → fn ≠ "" →
      getSeatId cfg rooms floor_id seat_number
        = (seatLookup rooms rn fn seat_number, true) ∧
      (rooms.lookup rn = none → seatLookup rooms rn fn seat_number = 0) ∧
      (∀ floors, rooms.lookup rn = some floors →
        (floors.lookup fn = none → seatLookup rooms rn fn seat_number = 0) ∧
        (∀ fd, floors.lookup fn = some fd →
          (fd.seats.lookup seat_number = none →
            seatLookup rooms rn fn seat_number = 0) ∧
          (∀ sid, fd.seats.lookup seat_number = some sid →
            seatLookup rooms rn fn seat_number = sid)))) := by
  have hne : ¬(floor_id = "" ∨ seat_number = "") := by
    intro h; rcases h with h | h
    · exact hfid h
    · exact hseat h
  constructor
  · intro h
    rw [getSeatId, if_neg hne]
    rcases h with h | h
    · rw [h]
    · rw [h]
      cases cfg.room_name_dict.lookup floor_id <;> rfl
  · intro rn fn hrn hfn hrne hfne
    rw [getSeatId, if_neg hne, hrn, hfn]
    simp only []
    rw [if_neg (by
      intro h; rcases h with h | h
      · exact hrne h
      · exact hfne h)]
    refine ⟨rfl, ?_, ?_⟩
    · intro h
      exact seatLookup_room_none rooms rn fn seat_number h
    · intro floors hfl
      refine ⟨?_, ?_⟩
      · intro h
        exact seatLookup_floor_none rooms rn fn seat_number floors hfl h
      · intro fd hfd
        refine ⟨?_, ?_⟩
        · intro h
          rw [seatLookup_seat rooms rn fn seat_number floors fd hfl hfd, h]
          rfl
        · intro sid h
          rw [seatLookup_seat rooms rn fn seat_number floors fd hfl hfd, h]
          rfl

/-- Witness for C8: floor "1547" resolves seat "42" to 1001 through the
sample topology, and unmapped floor "9999" yields 0 with no topology
access. -/
theorem seat_resolver_spec_witness :
    getSeatId sampleConfig sampleRooms "9999" "42" = (0, false) ∧
    getSeatId sampleConfig sampleRooms "1547" "42"
      = (seatLookup sampleRooms "RoomA" "F4" "42", true) ∧
    seatLookup sampleRooms "RoomA" "F4" "42" = 1001 := by
  have h1 := (seat_resolver_spec sampleConfig sampleRooms "9999" "42"
    (by decide) (by decide)).1 (Or.inl rfl)
  have h2 := (seat_resolver_spec sampleConfig sampleRooms "1547" "42"
    (by decide) (by decide)).2 "RoomA" "F4" rfl rfl (by decide) (by decide)
  refine ⟨h1, h2.1, ?_⟩
  exact (((h2.2.2 [("F4", ⟨[("42", 1001)], some 9⟩)] rfl).2
    ⟨[("42", 1001)], some 9⟩ rfl).2) 1001 rfl

/-! ## Booking window scheduler -/

/-- C9: the scheduler's window computation places `booking_opens_at` at
20:00 on the day `days_ahead` days before the begin time; when the current
time is earlier it sleeps exactly the difference, otherwise it returns
immediately (sleep 0); the sleep is never negative; and the try/except
wrapper turns any computation failure into "proceed immediately" instead of
raising. -/
theorem booking_window_spec (now begin_time : ℤ) (daysAhead : ℕ) :
    hourOfZ (bookingOpensAt begin_time daysAhead) = 20 ∧
    dateOfZ (bookingOpensAt begin_time daysAhead)
      = dateOfZ begin_time - daysAhead ∧
    (now < bookingOpensAt begin_time daysAhead →
      waitSleepSeconds now begin_time daysAhead
        = bookingOpensAt begin_time daysAhead - now) ∧
    (bookingOpensAt begin_time daysAhead ≤ now →
      waitSleepSeconds now begin_time daysAhead = 0) ∧
    0 ≤ waitSleepSeconds now begin_time daysAhead ∧
    (∀ w, waitForBookingWindow (Except.ok w) = w) ∧
    (∀ e, waitForBookingWindow (Except.error e) = 0) := by
  unfold waitSleepSeconds bookingOpensAt hourOfZ dateOfZ
  refine ⟨by omega, by omega, ?_, ?_, ?_, fun w => rfl, fun e => rfl⟩
  · intro h
    rw [if_pos h]
  · intro h
    rw [if_neg (by omega)]
  · split
    · omega
    · omega

/-- Witness for C9 at a concrete task: begin time 200000, one day ahead,
current time 100000 (window still closed) and 160000 (window open). -/
theorem booking_window_spec_witness :
    hourOfZ (bookingOpensAt 200000 1) = 20 ∧
    dateOfZ (bookingOpensAt 200000 1) = dateOfZ 200000 - 1 ∧
    waitSleepSeconds 100000 200000 1 = bookingOpensAt 200000 1 - 100000 ∧
    waitSleepSeconds 160000 200000 1 = 0 ∧
    waitForBookingWindow (Except.error "overflow") = 0 := by
  have h1 := booking_window_spec 100000 200000 1
  have h2 := booking_window_spec 160000 200000 1
  exact ⟨h1.1, h1.2.1, h1.2.2.1 (by decide), h2.2.2.2.1 (by decide),
    h1.2.2.2.2.2.2 "overflow"⟩

/-! ## Topology cache: refresh failure behaviour -/

/-- C4 as stated fails on the code: with an expired but still stored cache
entry, a (non-forced) get whose fetch fails returns the empty dict, not the
prior cached data.  State: cache stored at time 0, queried at time 4000
(TTL 3600 exceeded), fetch raising. -/
theorem cache_failure_counterexample :
    isCacheValid 4000 ⟨some sampleRooms, some 0⟩ = false ∧
    getRoomsDict false 4000 (Except.error "boom") ⟨some sampleRooms, some 0⟩
      = Except.ok ([], ⟨some sampleRooms, some 0⟩) ∧
    sampleRooms ≠ ([] : Rooms) := by
  refine ⟨rfl, rfl, by decide⟩

/-- C4 amended: a forced refresh that fails returns the previously stored
entry unchanged when one exists and propagates the error when none does; a
non-forced get whose fetch fails returns the empty dict and leaves the
cache untouched, even when an expired stored entry exists. -/
theorem cache_failure_amended (now : ℕ) (s : CacheState) (e : String) :
    (∀ d, s.cache = some d →
      getRoomsDict true now (Except.error e) s = Except.ok (d, s)) ∧
    (s.cache = none →
      getRoomsDict true now (Except.error e) s = Except.error e) ∧
    (isCacheValid now s = false →
      getRoomsDict false now (Except.error e) s = Except.ok ([], s)) := by
  refine ⟨?_, ?_, ?_⟩
  · intro d hd
    rw [getRoomsDict, if_neg (by simp), if_pos rfl, refreshCache, hd]
  · intro hd
    rw [getRoomsDict, if_neg (by simp), if_pos rfl, refreshCache, hd]
  · intro hv
    rw [getRoomsDict, if_neg (by simp [hv]), if_neg (by simp)]

/-- Witness for the C4 amendment: stored entry returned unchanged on forced
failure; error propagated when nothing is stored; empty dict on non-forced
failure. -/
theorem cache_failure_amended_witness :
    getRoomsDict true 4000 (Except.error "boom") ⟨some sampleRooms, some 0⟩
      = Except.ok (sampleRooms, ⟨some sampleRooms, some 0⟩) ∧
    getRoomsDict true 4000 (Except.error "boom") ⟨none, none⟩
      = Except.error "boom" ∧
    getRoomsDict false 4000 (Except.error "boom") ⟨none, none⟩
      = Except.ok ([], ⟨none, none⟩) := by
  have h1 := cache_failure_amended 4000 ⟨some sampleRooms, some 0⟩ "boom"
  have h2 := cache_failure_amended 4000 ⟨none, none⟩ "boom"
  exact ⟨h1.1 sampleRooms rfl, h2.2.1 rfl, h2.2.2 rfl⟩

/-! ## Topology cache: single-flight -/

/-- C3 as stated fails on the code: in the schedule where both callers pass
the (lock-protected) cache check before either fetches, each performs its
own external fetch — two fetches for two concurrent refresh-triggering
calls, though both finish with the fetched data. -/
theorem cache_singleflight_counterexample :
    (execSchedule sampleRooms
      [CallerId.A, CallerId.B, CallerId.A, CallerId.A, CallerId.B, CallerId.B]
      initTwoCallers)
      = ⟨some sampleRooms, CallerPC.done, CallerPC.done, 2,
          some sampleRooms, some sampleRooms⟩ := by
  rfl

/-- C3 amended: the cache-miss check and the fetch are not one exclusive
section, so two concurrent refresh-triggering calls may each perform an
external fetch (both checks before either fetch → 2 fetches); only when one
caller's fetch and store complete before the other's check does the second
caller reuse the cached result without fetching (1 fetch). -/
theorem cache_singleflight_amended (d : Rooms) :
    execSchedule d
        [CallerId.A, CallerId.B, CallerId.A, CallerId.A, CallerId.B, CallerId.B]
        initTwoCallers
      = ⟨some d, CallerPC.done, CallerPC.done, 2, some d, some d⟩ ∧
    execSchedule d [CallerId.A, CallerId.A, CallerId.A, CallerId.B]
        initTwoCallers
      = ⟨some d, CallerPC.done, CallerPC.done, 1, some d, some d⟩ := by
  exact ⟨rfl, rfl⟩

end HduLib
